import Mathlib

/-!
Verification development for the race-blur-detector repository.

Part A models the sharpness-scoring core (grayscale conversion, Laplacian
response, region variance, composite score, band classification).  The
scoring code lives in the renderer layer of the application, which is not
among the provided source files, so every definition of Part A is modelled
from the specification text and says so in its doc comment.

Part B embeds the file-handling helpers of src/preload.js (scanJpegs,
readFileBase64, scanMultipleFolders, moveToReview) over explicit
environments standing for the file system.
-/

namespace RaceBlur

/-- Modelled from the spec: DecodedImage, a row-major pixel buffer with
width, height and channel count (the renderer scoring code is not in the
provided sources).  Pixel samples are rationals standing for JS numbers. -/
structure DecodedImage where
  width : Int
  height : Int
  channels : Nat
  buffer : List ℚ
deriving DecidableEq, Repr

/-- Modelled from the spec: ScoringConfig carries the user-adjustable
threshold (positive, default 100); the other constants are fixed. -/
structure ScoringConfig where
  threshold : ℚ
deriving DecidableEq, Repr

/-- Modelled from the spec: the three user-facing sharpness bands. -/
inductive Band where
  | blurry
  | borderline
  | sharp
deriving DecidableEq, Repr, Inhabited

/-- Modelled from the spec: ScoreResult with composite score, band and the
two constituent variances. -/
structure ScoreResult where
  score : ℚ
  band : Band
  fullVar : ℚ
  centerVar : ℚ
deriving DecidableEq, Repr

/-- Modelled from the spec: the error raised on a malformed DecodedImage. -/
structure InvalidImageError where
deriving DecidableEq, Repr

/-- Modelled from the spec: fixed design constant, the centered crop covers
the middle 50 percent of width and height. -/
def centerCropFraction : ℚ := 1/2

/-- Modelled from the spec: fixed blend weight of the full-frame variance.
Constraints from the spec: the two weights sum to 1 and the center weight
dominates. -/
def wFull : ℚ := 2/5

/-- Modelled from the spec: fixed blend weight of the center-crop variance. -/
def wCenter : ℚ := 3/5

/-- Modelled from the spec: fixed band constant, lower edge of the
borderline band as a multiple of the threshold (spec example value 0.8). -/
def ratioLow : ℚ := 4/5

/-- Modelled from the spec: fixed band constant, upper edge of the
borderline band as a multiple of the threshold (spec example value 1.2). -/
def ratioHigh : ℚ := 6/5

/-- Modelled from the spec: grayscale conversion.  A single-channel buffer
passes through unchanged; otherwise the standard luma weighting
0.299 R + 0.587 G + 0.114 B is applied per pixel (alpha ignored). -/
def toGray (img : DecodedImage) : List ℚ :=
  if img.channels = 1 then img.buffer
  else
    (List.range (img.width.toNat * img.height.toNat)).map fun i =>
      299/1000 * img.buffer.getD (img.channels * i) 0
        + 587/1000 * img.buffer.getD (img.channels * i + 1) 0
        + 114/1000 * img.buffer.getD (img.channels * i + 2) 0

/-- Intensity at pixel (x, y) of a row-major grayscale buffer of width w. -/
def grayAt (gray : List ℚ) (w x y : Nat) : ℚ :=
  gray.getD (y * w + x) 0

/-- Modelled from the spec: the discrete 4-neighbor Laplacian magnitude at
an (interior) pixel. -/
def lapAt (gray : List ℚ) (w x y : Nat) : ℚ :=
  |4 * grayAt gray w x y - grayAt gray w (x - 1) y - grayAt gray w (x + 1) y
    - grayAt gray w x (y - 1) - grayAt gray w x (y + 1)|

/-- Modelled from the spec: the Laplacian response samples of the pixels
that are both interior (one-pixel border excluded) and inside the inclusive
rectangle [x0, x1] x [y0, y1].  Border pixels contribute no sample. -/
def regionSamples (gray : List ℚ) (w h x0 x1 y0 y1 : Nat) : List ℚ :=
  (((List.range h).filter fun y =>
      decide (1 ≤ y ∧ y + 1 < h ∧ y0 ≤ y ∧ y ≤ y1)).map fun y =>
    ((List.range w).filter fun x =>
        decide (1 ≤ x ∧ x + 1 < w ∧ x0 ≤ x ∧ x ≤ x1)).map fun x =>
      lapAt gray w x y).flatten

/-- Modelled from the spec: the full-frame region is the entire interior. -/
def fullFrameSamples (gray : List ℚ) (w h : Nat) : List ℚ :=
  regionSamples gray w h 0 (w - 1) 0 (h - 1)

/-- Modelled from the spec: inclusive bounds of the centered crop along one
dimension of size n: span of centerCropFraction times n pixels, clamped to a
minimum of 1, centered. -/
def centerBounds (n : Nat) : Nat × Nat :=
  let c := max 1 (n / 2)
  let s := (n - c) / 2
  (s, s + c - 1)

/-- Population mean of a list of rationals (0 for the empty list, since the
sum is 0). -/
def listMean (xs : List ℚ) : ℚ := xs.sum / xs.length

/-- Modelled from the spec: population variance of a list of response
values; defined as 0 when the list is empty. -/
def popVariance (xs : List ℚ) : ℚ :=
  if xs.length = 0 then 0
  else ((xs.map fun v => (v - listMean xs) ^ 2).sum) / xs.length

/-- Modelled from the spec: classification of a score against threshold T
using the fixed band constants. -/
def classify (s T : ℚ) : Band :=
  if s < T * ratioLow then Band.blurry
  else if s < T * ratioHigh then Band.borderline
  else Band.sharp

/-- Position of a band in the blurry, borderline, sharp order, used to
state the band ordering. -/
def bandRank : Band → Nat
  | Band.blurry => 0
  | Band.borderline => 1
  | Band.sharp => 2

/-- Modelled from the spec: scoring of an already-validated grayscale frame
of dimensions w x h: blend of full-frame and center-crop Laplacian
variance, plus the derived band. -/
def scoreGray (w h : Nat) (gray : List ℚ) (cfg : ScoringConfig) : ScoreResult :=
  let vFull := popVariance (fullFrameSamples gray w h)
  let cx := centerBounds w
  let cy := centerBounds h
  let vCenter := popVariance (regionSamples gray w h cx.1 cx.2 cy.1 cy.2)
  let s := wFull * vFull + wCenter * vCenter
  { score := s, band := classify s cfg.threshold, fullVar := vFull, centerVar := vCenter }

/-- Structural validity of a DecodedImage: positive dimensions and a buffer
of exactly width * height * channels samples. -/
def validImage (img : DecodedImage) : Prop :=
  0 < img.width ∧ 0 < img.height ∧
    (img.buffer.length : Int) = img.width * img.height * img.channels

instance (img : DecodedImage) : Decidable (validImage img) := by
  unfold validImage; infer_instance

/-- Modelled from the spec: the single operation of the core.  Validates
the image eagerly and either fails with InvalidImageError or produces the
deterministic ScoreResult. -/
def score (img : DecodedImage) (cfg : ScoringConfig) :
    Except InvalidImageError ScoreResult :=
  if validImage img then
    Except.ok (scoreGray img.width.toNat img.height.toNat (toGray img) cfg)
  else
    Except.error {}

end RaceBlur

namespace Preload

/-- Model of path.join for two segments: concatenation with a slash,
matching the POSIX behavior used by the handlers. -/
def pathJoin (a b : String) : String := a ++ ("/") ++ b

/-- Model of path.basename: the characters after the last slash. -/
def basename (p : String) : String :=
  String.mk ((p.data.reverse.takeWhile (fun c => c != '/')).reverse)

/-- ASCII lower-casing of one character, as the i regex flag applies to the
extension letters. -/
def lowerChar (c : Char) : Char :=
  if 'A' ≤ c ∧ c ≤ 'Z' then Char.ofNat (c.toNat + 32) else c

/-- Model of the String.startsWith check against a one-character dot. -/
def startsWithDot (s : String) : Bool :=
  match s.data with
  | [] => false
  | c :: _ => c = '.'

/-- A directory entry as produced by readdir with file types: its name and
whether it is a regular file. -/
structure DirEntry where
  name : String
  isFile : Bool
deriving DecidableEq, Repr

/-- An entry returned by scanJpegs: file name and full path. -/
structure JpegEntry where
  name : String
  path : String
deriving DecidableEq, Repr, Inhabited

/-- The JPEG file-name test of scanJpegs: the regular expression
/\.(jpe?g)$/i accepts exactly the names ending in .jpg or .jpeg up to
case. -/
def matchesJpegExt (s : String) : Bool :=
  (".jpg").data.isSuffixOf (s.data.map lowerChar)
    || (".jpeg").data.isSuffixOf (s.data.map lowerChar)

/-- Embedding of scanJpegs (src/preload.js lines 52-70) for a folder whose
readdir succeeded with the given entries.  statSize gives the size of a
path, or none when stat throws.  An entry is kept when it is a regular
file, its name matches the JPEG pattern and is not hidden, and stat
succeeds with a nonzero size; its path is the folder joined with its
name. -/
def scanJpegs (folderPath : String) (statSize : String → Option Nat) :
    List DirEntry → List JpegEntry
  | [] => []
  | e :: rest =>
    if !e.isFile || !matchesJpegExt e.name || startsWithDot e.name then
      scanJpegs folderPath statSize rest
    else
      match statSize (pathJoin folderPath e.name) with
      | none => scanJpegs folderPath statSize rest
      | some sz =>
        if sz = 0 then scanJpegs folderPath statSize rest
        else
          { name := e.name, path := pathJoin folderPath e.name }
            :: scanJpegs folderPath statSize rest

/-- Embedding of scanMultipleFolders (src/preload.js lines 99-108): scan
each folder in turn, appending the array results and skipping folders whose
scan returned an error object instead of an array. -/
def scanMultipleFolders (scan : String → Except String (List JpegEntry))
    (folderPaths : List String) : List JpegEntry :=
  folderPaths.foldl
    (fun results folder =>
      match scan folder with
      | Except.ok js => results ++ js
      | Except.error _ => results)
    []

/-- The base64 alphabet in order, as used by Buffer.toString. -/
def base64Chars : List Char :=
  ("ABCDEFGHIJKLMNOPQRSTUVWXYZabcdefghijklmnopqrstuvwxyz0123456789+/").toList

/-- The character encoding a 6-bit value. -/
def encodeSextet (n : Nat) : Char := base64Chars.getD n '?'

/-- The 6-bit value of an alphabet character. -/
def decodeSextet (ch : Char) : Nat := base64Chars.indexOf ch

/-- Standard base64 encoding of a byte list, '=' padded, as produced by
Buffer.toString with the base64 encoding. -/
def base64Encode : List Nat → List Char
  | a :: b :: c :: rest =>
    encodeSextet (a / 4) :: encodeSextet (a % 4 * 16 + b / 16)
      :: encodeSextet (b % 16 * 4 + c / 64) :: encodeSextet (c % 64)
      :: base64Encode rest
  | [a, b] =>
    [encodeSextet (a / 4), encodeSextet (a % 4 * 16 + b / 16),
      encodeSextet (b % 16 * 4), '=']
  | [a] => [encodeSextet (a / 4), encodeSextet (a % 4 * 16), '=', '=']
  | [] => []

/-- Standard base64 decoding, the inverse used to state the round-trip
property of readFileBase64. -/
def base64Decode : List Char → List Nat
  | c1 :: c2 :: c3 :: c4 :: rest =>
    if rest = [] ∧ c4 = '=' then
      if c3 = '=' then [decodeSextet c1 * 4 + decodeSextet c2 / 16]
      else
        [decodeSextet c1 * 4 + decodeSextet c2 / 16,
          decodeSextet c2 % 16 * 16 + decodeSextet c3 / 4]
    else
      (decodeSextet c1 * 4 + decodeSextet c2 / 16)
        :: (decodeSextet c2 % 16 * 16 + decodeSextet c3 / 4)
        :: (decodeSextet c3 % 4 * 64 + decodeSextet c4)
        :: base64Decode rest
  | _ => []

/-- Embedding of readFileBase64 (src/preload.js lines 72-82) for a file
whose read succeeded with the given byte content: reject contents shorter
than 2 bytes or not starting with 0xFF 0xD8, otherwise return the base64
string of the bytes. -/
def readFileBase64 (buf : List Nat) : Except String String :=
  if buf.length < 2 ∨ buf.getD 0 0 ≠ 255 ∨ buf.getD 1 0 ≠ 216 then
    Except.error ("not a valid JPEG")
  else
    Except.ok (String.mk (base64Encode buf))

/-- One per-file entry of the moveToReview result list. -/
structure MoveResult where
  file : String
  success : Bool
  error : Option String
deriving DecidableEq, Repr, Inhabited

/-- The argument object of moveToReview. -/
structure MovePayload where
  files : List String
  sourceFolder : String
  reviewFolderName : Option String
  destFolder : Option String
deriving DecidableEq, Repr

/-- The file-system effects moveToReview performs, over an abstract state:
creating the review directory and renaming a file (which can fail with an
error message). -/
structure MoveEnv (σ : Type) where
  ensureDir : String → σ → σ
  rename : String → String → σ → Except String σ

/-- The per-file loop of moveToReview (src/preload.js lines 184-198): each
file is renamed into the review directory; a throwing rename yields a
failure entry with the error message and the loop continues. -/
def moveFilesGo {σ : Type} (env : MoveEnv σ) (reviewDir : String) :
    List String → σ → σ × List MoveResult
  | [], st => (st, [])
  | f :: rest, st =>
    let fileName := basename f
    let dest := pathJoin reviewDir fileName
    match env.rename f dest st with
    | Except.ok st1 =>
      let out := moveFilesGo env reviewDir rest st1
      (out.1, { file := fileName, success := true, error := none } :: out.2)
    | Except.error msg =>
      let out := moveFilesGo env reviewDir rest st
      (out.1, { file := fileName, success := false, error := some msg } :: out.2)

/-- The value moveToReview resolves with. -/
structure MoveOutcome where
  reviewDir : String
  results : List MoveResult
deriving DecidableEq, Repr

/-- Embedding of moveToReview (src/preload.js lines 178-200): the review
directory is destFolder when given, else sourceFolder joined with
reviewFolderName (default review_blurry); it is created if missing, then
every file is processed in order. -/
def moveToReview {σ : Type} (env : MoveEnv σ) (payload : MovePayload)
    (st : σ) : σ × MoveOutcome :=
  let reviewDir :=
    match payload.destFolder with
    | some d => d
    | none =>
      pathJoin payload.sourceFolder (payload.reviewFolderName.getD ("review_blurry"))
  let st1 := env.ensureDir reviewDir st
  let out := moveFilesGo env reviewDir payload.files st1
  (out.1, { reviewDir := reviewDir, results := out.2 })

/-- The file-system state moveFilesGo has reached when it processes the
file at index i: the states threaded by the earlier renames, a failing
rename leaving the state unchanged.  Used to tie each result entry to the
outcome of its own rename. -/
def moveStateAt {σ : Type} (env : MoveEnv σ) (reviewDir : String) :
    List String → σ → Nat → σ
  | [], st, _ => st
  | _ :: _, st, 0 => st
  | f :: rest, st, i + 1 =>
    match env.rename f (pathJoin reviewDir (basename f)) st with
    | Except.ok st1 => moveStateAt env reviewDir rest st1 i
    | Except.error _ => moveStateAt env reviewDir rest st i

end Preload

namespace RaceBlur

lemma idx_lt_of_lt {x y w h : Nat} (hx : x < w) (hy : y < h) :
    y * w + x < w * h := by
  calc y * w + x < y * w + w := by omega
    _ = (y + 1) * w := by ring
    _ ≤ h * w := Nat.mul_le_mul_right w hy
    _ = w * h := Nat.mul_comm h w

lemma mem_regionSamples {gray : List ℚ} {w h x0 x1 y0 y1 : Nat} {v : ℚ} :
    v ∈ regionSamples gray w h x0 x1 y0 y1 ↔
      ∃ x y, 1 ≤ x ∧ x + 1 < w ∧ x0 ≤ x ∧ x ≤ x1 ∧
        1 ≤ y ∧ y + 1 < h ∧ y0 ≤ y ∧ y ≤ y1 ∧ v = lapAt gray w x y := by
  unfold regionSamples
  constructor
  · intro hmem
    obtain ⟨l, hl, hv⟩ := List.mem_flatten.mp hmem
    obtain ⟨y, hy, rfl⟩ := List.mem_map.mp hl
    obtain ⟨x, hx, hfx⟩ := List.mem_map.mp hv
    obtain ⟨hyr, hyc⟩ := List.mem_filter.mp hy
    obtain ⟨hxr, hxc⟩ := List.mem_filter.mp hx
    rw [decide_eq_true_eq] at hyc hxc
    obtain ⟨hy1, hy2, hy3, hy4⟩ := hyc
    obtain ⟨hx1, hx2, hx3, hx4⟩ := hxc
    exact ⟨x, y, hx1, hx2, hx3, hx4, hy1, hy2, hy3, hy4, hfx.symm⟩
  · rintro ⟨x, y, hx1, hx2, hx3, hx4, hy1, hy2, hy3, hy4, rfl⟩
    apply List.mem_flatten.mpr
    refine ⟨_, List.mem_map.mpr ⟨y, List.mem_filter.mpr
      ⟨List.mem_range.mpr (by omega),
        by rw [decide_eq_true_eq]; exact ⟨hy1, hy2, hy3, hy4⟩⟩, rfl⟩, ?_⟩
    exact List.mem_map.mpr ⟨x, List.mem_filter.mpr
      ⟨List.mem_range.mpr (by omega),
        by rw [decide_eq_true_eq]; exact ⟨hx1, hx2, hx3, hx4⟩⟩, rfl⟩

lemma regionSamples_nil_of_small {gray : List ℚ} {w h x0 x1 y0 y1 : Nat}
    (hsmall : w < 3 ∨ h < 3) :
    regionSamples gray w h x0 x1 y0 y1 = [] := by
  rw [List.eq_nil_iff_forall_not_mem]
  intro v hv
  obtain ⟨x, y, hx1, hx2, _, _, hy1, hy2, _⟩ := mem_regionSamples.mp hv
  omega

lemma popVariance_nonneg (xs : List ℚ) : 0 ≤ popVariance xs := by
  unfold popVariance
  split
  · exact le_refl 0
  · refine div_nonneg (List.sum_nonneg ?_) (Nat.cast_nonneg _)
    rintro a ha
    obtain ⟨v, _, rfl⟩ := List.mem_map.mp ha
    exact sq_nonneg _

lemma popVariance_const {xs : List ℚ} {c : ℚ} (h : ∀ v ∈ xs, v = c) :
    popVariance xs = 0 := by
  unfold popVariance
  split
  · rfl
  · rename_i hlen
    have hsum : xs.sum = xs.length • c := List.sum_eq_card_nsmul xs c h
    have hmean : listMean xs = c := by
      unfold listMean
      rw [hsum, nsmul_eq_mul]
      exact mul_div_cancel_left₀ c (by exact_mod_cast hlen)
    have hzero : (xs.map fun v => (v - listMean xs) ^ 2).sum = 0 := by
      apply List.sum_eq_zero
      rintro a ha
      obtain ⟨v, hv, rfl⟩ := List.mem_map.mp ha
      rw [hmean, h v hv]
      ring
    rw [hzero, zero_div]

lemma toGray_length {img : DecodedImage} (h : validImage img) :
    (toGray img).length = img.width.toNat * img.height.toNat := by
  obtain ⟨hw, hh, hlen⟩ := h
  unfold toGray
  split
  · rename_i hc
    have : (img.buffer.length : Int) = img.width * img.height := by
      rw [hlen, hc]; ring
    have h2 : ((img.width.toNat * img.height.toNat : Nat) : Int)
        = img.width * img.height := by
      push_cast [Int.toNat_of_nonneg hw.le, Int.toNat_of_nonneg hh.le]
      ring
    exact_mod_cast this.trans h2.symm
  · simp

lemma lapAt_eq_zero_of_uniform {gray : List ℚ} {w h : Nat} {c : ℚ}
    (hg : gray.length = w * h)
    (huni : ∀ i, i < gray.length → gray.getD i 0 = c)
    {x y : Nat} (hx1 : 1 ≤ x) (hxw : x + 1 < w) (hy1 : 1 ≤ y) (hyh : y + 1 < h) :
    lapAt gray w x y = 0 := by
  have hval : ∀ a b : Nat, a < w → b < h → grayAt gray w a b = c := by
    intro a b ha hb
    unfold grayAt
    exact huni _ (by rw [hg]; exact idx_lt_of_lt ha hb)
  unfold lapAt
  rw [hval x y (by omega) (by omega), hval (x - 1) y (by omega) (by omega),
    hval (x + 1) y (by omega) (by omega), hval x (y - 1) (by omega) (by omega),
    hval x (y + 1) (by omega) (by omega)]
  have : 4 * c - c - c - c - c = 0 := by ring
  rw [this, abs_zero]

/-- C1: the Laplacian response samples are exactly the interior pixels with
the 4-neighbor magnitude formula; border pixels contribute no sample to any
region statistic; and when w < 3 or h < 3 the response set is empty and the
downstream variance is 0. -/
theorem laplacian_interior_spec (gray : List ℚ) (w h : Nat) (v : ℚ) :
    (v ∈ fullFrameSamples gray w h ↔
      ∃ x y, 1 ≤ x ∧ x + 1 < w ∧ 1 ≤ y ∧ y + 1 < h ∧
        v = |4 * grayAt gray w x y - grayAt gray w (x - 1) y
          - grayAt gray w (x + 1) y - grayAt gray w x (y - 1)
          - grayAt gray w x (y + 1)|) ∧
    (∀ x0 x1 y0 y1, v ∈ regionSamples gray w h x0 x1 y0 y1 →
      ∃ x y, 1 ≤ x ∧ x + 1 < w ∧ 1 ≤ y ∧ y + 1 < h ∧ v = lapAt gray w x y) ∧
    ((w < 3 ∨ h < 3) → fullFrameSamples gray w h = [] ∧
      popVariance (fullFrameSamples gray w h) = 0) := by
  refine ⟨?_, ?_, ?_⟩
  · unfold fullFrameSamples
    rw [mem_regionSamples]
    constructor
    · rintro ⟨x, y, hx1, hx2, _, _, hy1, hy2, _, _, rfl⟩
      exact ⟨x, y, hx1, hx2, hy1, hy2, rfl⟩
    · rintro ⟨x, y, hx1, hx2, hy1, hy2, rfl⟩
      exact ⟨x, y, hx1, hx2, by omega, by omega, hy1, hy2, by omega, by omega, rfl⟩
  · intro x0 x1 y0 y1 hv
    obtain ⟨x, y, hx1, hx2, _, _, hy1, hy2, _, _, rfl⟩ := mem_regionSamples.mp hv
    exact ⟨x, y, hx1, hx2, hy1, hy2, rfl⟩
  · intro hsmall
    have hnil : fullFrameSamples gray w h = [] :=
      regionSamples_nil_of_small hsmall
    exact ⟨hnil, by rw [hnil]; rfl⟩

/-- Witness for C1 at a concrete 2 x 2 frame: no interior pixel, empty
response, variance 0. -/
theorem laplacian_interior_spec_witness :
    fullFrameSamples [0, 1, 2, 3] 2 2 = [] ∧
      popVariance (fullFrameSamples [0, 1, 2, 3] 2 2) = 0 :=
  (laplacian_interior_spec [0, 1, 2, 3] 2 2 0).2.2 (Or.inl (by omega))

end RaceBlur

namespace RaceBlur

lemma scoreGray_score (w h : Nat) (gray : List ℚ) (cfg : ScoringConfig) :
    (scoreGray w h gray cfg).score
      = wFull * popVariance (fullFrameSamples gray w h)
        + wCenter * popVariance (regionSamples gray w h
            (centerBounds w).1 (centerBounds w).2
            (centerBounds h).1 (centerBounds h).2) := rfl

lemma scoreGray_fullVar (w h : Nat) (gray : List ℚ) (cfg : ScoringConfig) :
    (scoreGray w h gray cfg).fullVar
      = popVariance (fullFrameSamples gray w h) := rfl

lemma scoreGray_centerVar (w h : Nat) (gray : List ℚ) (cfg : ScoringConfig) :
    (scoreGray w h gray cfg).centerVar
      = popVariance (regionSamples gray w h
          (centerBounds w).1 (centerBounds w).2
          (centerBounds h).1 (centerBounds h).2) := rfl

lemma scoreGray_band (w h : Nat) (gray : List ℚ) (cfg : ScoringConfig) :
    (scoreGray w h gray cfg).band
      = classify ((scoreGray w h gray cfg).score) cfg.threshold := rfl

/-- C2: for every valid image the composite score is the fixed-weight blend
of the two variances, the weights sum to 1 with the center weight dominant,
and the score is non-negative. -/
theorem composite_score_blend (img : DecodedImage) (cfg : ScoringConfig)
    (r : ScoreResult) (h : score img cfg = Except.ok r) :
    r.score = wFull * r.fullVar + wCenter * r.centerVar ∧
      wFull + wCenter = 1 ∧ wFull < wCenter ∧ 0 ≤ r.score := by
  unfold score at h
  split_ifs at h with hval
  simp only [Except.ok.injEq] at h
  subst h
  refine ⟨rfl, by norm_num [wFull, wCenter], by norm_num [wFull, wCenter], ?_⟩
  rw [scoreGray_score]
  have h1 := popVariance_nonneg
    (fullFrameSamples (toGray img) img.width.toNat img.height.toNat)
  have h2 := popVariance_nonneg
    (regionSamples (toGray img) img.width.toNat img.height.toNat
      (centerBounds img.width.toNat).1 (centerBounds img.width.toNat).2
      (centerBounds img.height.toNat).1 (centerBounds img.height.toNat).2)
  have hwf : (0:ℚ) ≤ wFull := by norm_num [wFull]
  have hwc : (0:ℚ) ≤ wCenter := by norm_num [wCenter]
  exact add_nonneg (mul_nonneg hwf h1) (mul_nonneg hwc h2)

/-- Witness for C2 at a concrete uniform 2 x 2 image. -/
theorem composite_score_blend_witness :
    (0:ℚ) = wFull * 0 + wCenter * 0 ∧
      wFull + wCenter = 1 ∧ wFull < wCenter ∧ (0:ℚ) ≤ 0 :=
  composite_score_blend ⟨2, 2, 1, [7, 7, 7, 7]⟩ ⟨100⟩
    ⟨0, Band.blurry, 0, 0⟩ (by
      simp [score, validImage, scoreGray, fullFrameSamples, regionSamples,
        centerBounds, popVariance, classify, toGray, ratioLow, wFull, wCenter,
        List.range_succ])

lemma classify_eq_blurry_iff {s T : ℚ} :
    classify s T = Band.blurry ↔ s < T * ratioLow := by
  unfold classify
  split_ifs with h1 h2
  · exact iff_of_true rfl h1
  · exact iff_of_false (by simp) h1
  · exact iff_of_false (by simp) h1

lemma classify_eq_borderline_iff {s T : ℚ} :
    classify s T = Band.borderline ↔ T * ratioLow ≤ s ∧ s < T * ratioHigh := by
  unfold classify
  split_ifs with h1 h2
  · exact iff_of_false (by simp) (by rintro ⟨hle, _⟩; exact absurd h1 (not_lt.mpr hle))
  · exact iff_of_true rfl ⟨le_of_not_lt h1, h2⟩
  · exact iff_of_false (by simp) (by rintro ⟨_, hlt⟩; exact h2 hlt)

lemma classify_eq_sharp_iff {s T : ℚ} (hT : 0 < T) :
    classify s T = Band.sharp ↔ T * ratioHigh ≤ s := by
  unfold classify
  split_ifs with h1 h2
  · refine iff_of_false (by simp) (fun hle => ?_)
    rw [ratioLow] at h1; rw [ratioHigh] at hle; nlinarith
  · exact iff_of_false (by simp) (fun hle => absurd h2 (not_lt.mpr hle))
  · exact iff_of_true rfl (le_of_not_lt h2)

/-- C3: for every positive threshold T the classification bands are exactly
the intervals below T * ratioLow, between the two cutoffs, and at or above
T * ratioHigh; the cutoffs are ordered so the bands are ordered blurry,
borderline, sharp, monotonically in the score. -/
theorem classification_bands (s T : ℚ) (hT : 0 < T) :
    (classify s T = Band.blurry ↔ s < T * ratioLow) ∧
    (classify s T = Band.borderline ↔ T * ratioLow ≤ s ∧ s < T * ratioHigh) ∧
    (classify s T = Band.sharp ↔ T * ratioHigh ≤ s) ∧
    T * ratioLow < T * ratioHigh ∧
    (∀ s1 s2 : ℚ, s1 ≤ s2 →
      bandRank (classify s1 T) ≤ bandRank (classify s2 T)) := by
  have hlh : T * ratioLow < T * ratioHigh := by
    rw [ratioLow, ratioHigh]; nlinarith
  refine ⟨classify_eq_blurry_iff, classify_eq_borderline_iff,
    classify_eq_sharp_iff hT, hlh, ?_⟩
  intro s1 s2 h12
  unfold classify
  split_ifs <;> simp_all [bandRank] <;> linarith

/-- Witness for C3 at threshold 100: score 50 is blurry, score 200 sharp. -/
theorem classification_bands_witness :
    classify 50 100 = Band.blurry ∧ classify 200 100 = Band.sharp :=
  ⟨(classification_bands 50 100 (by norm_num)).1.mpr
      (by rw [ratioLow]; norm_num),
    (classification_bands 200 100 (by norm_num)).2.2.1.mpr
      (by rw [ratioHigh]; norm_num)⟩

/-- C4: scoring fails with InvalidImageError exactly on structurally
invalid images; every structurally valid image scores successfully, and a
valid image too small to have interior pixels scores 0. -/
theorem score_error_iff_invalid (img : DecodedImage) (cfg : ScoringConfig) :
    ((∃ e, score img cfg = Except.error e) ↔
      ¬ (0 < img.width ∧ 0 < img.height ∧
        (img.buffer.length : Int) = img.width * img.height * img.channels)) ∧
    ((0 < img.width ∧ 0 < img.height ∧
        (img.buffer.length : Int) = img.width * img.height * img.channels) →
      ∃ r, score img cfg = Except.ok r) ∧
    (∀ r, score img cfg = Except.ok r →
      (img.width < 3 ∨ img.height < 3) → r.score = 0) := by
  refine ⟨?_, ?_, ?_⟩
  · unfold score
    split_ifs with h
    · exact iff_of_false (by simp) (fun hn => hn h)
    · exact iff_of_true ⟨{}, rfl⟩ h
  · intro hval
    have hv : validImage img := hval
    exact ⟨scoreGray img.width.toNat img.height.toNat (toGray img) cfg,
      by unfold score; rw [if_pos hv]⟩
  · intro r hr hsmall
    unfold score at hr
    split_ifs at hr with hval
    simp only [Except.ok.injEq] at hr
    subst hr
    have hwh : img.width.toNat < 3 ∨ img.height.toNat < 3 := by omega
    rw [scoreGray_score, regionSamples_nil_of_small hwh]
    unfold fullFrameSamples
    rw [regionSamples_nil_of_small hwh]
    norm_num [popVariance]

/-- Witness for C4: a zero-width image is rejected with the error. -/
theorem score_error_iff_invalid_witness :
    ∃ e, score ⟨0, 3, 1, []⟩ ⟨100⟩ = Except.error e :=
  (score_error_iff_invalid ⟨0, 3, 1, []⟩ ⟨100⟩).1.mpr (by decide)

/-- C5: scoring is deterministic: two runs of score on the same image and
config give the same result. -/
theorem score_deterministic (img : DecodedImage) (cfg : ScoringConfig)
    (r1 r2 : Except InvalidImageError ScoreResult)
    (h1 : score img cfg = r1) (h2 : score img cfg = r2) : r1 = r2 :=
  h1.symm.trans h2

/-- Witness for C5 at a concrete 1 x 1 image. -/
theorem score_deterministic_witness :
    (Except.ok { score := 0, band := Band.blurry, fullVar := 0, centerVar := 0 }
        : Except InvalidImageError ScoreResult)
      = Except.ok { score := 0, band := Band.blurry, fullVar := 0, centerVar := 0 } :=
  score_deterministic ⟨1, 1, 1, [5]⟩ ⟨100⟩ _ _
    (by
      simp [score, validImage, scoreGray, fullFrameSamples, regionSamples,
        centerBounds, popVariance, classify, toGray, ratioLow, wFull, wCenter,
        List.range_succ])
    (by
      simp [score, validImage, scoreGray, fullFrameSamples, regionSamples,
        centerBounds, popVariance, classify, toGray, ratioLow, wFull, wCenter,
        List.range_succ])

end RaceBlur

namespace RaceBlur

/-- C6: a structurally valid image whose gray intensities are all equal
scores 0 in both variances and in the composite, and classifies blurry for
every positive threshold. -/
theorem uniform_image_zero_score (img : DecodedImage) (cfg : ScoringConfig)
    (c : ℚ) (r : ScoreResult)
    (huni : ∀ i, i < (toGray img).length → (toGray img).getD i 0 = c)
    (hT : 0 < cfg.threshold)
    (hr : score img cfg = Except.ok r) :
    r.fullVar = 0 ∧ r.centerVar = 0 ∧ r.score = 0 ∧ r.band = Band.blurry := by
  unfold score at hr
  split_ifs at hr with hval
  simp only [Except.ok.injEq] at hr
  subst hr
  have hg : (toGray img).length = img.width.toNat * img.height.toNat :=
    toGray_length hval
  have hzero : ∀ x0 x1 y0 y1 v,
      v ∈ regionSamples (toGray img) img.width.toNat img.height.toNat
        x0 x1 y0 y1 → v = 0 := by
    intro x0 x1 y0 y1 v hv
    obtain ⟨x, y, hx1, hx2, _, _, hy1, hy2, _, _, rfl⟩ :=
      mem_regionSamples.mp hv
    exact lapAt_eq_zero_of_uniform hg huni hx1 hx2 hy1 hy2
  have hfull : popVariance
      (fullFrameSamples (toGray img) img.width.toNat img.height.toNat) = 0 :=
    popVariance_const (fun v hv => hzero _ _ _ _ v hv)
  have hcen : popVariance
      (regionSamples (toGray img) img.width.toNat img.height.toNat
        (centerBounds img.width.toNat).1 (centerBounds img.width.toNat).2
        (centerBounds img.height.toNat).1 (centerBounds img.height.toNat).2)
      = 0 :=
    popVariance_const (fun v hv => hzero _ _ _ _ v hv)
  have hscore : (scoreGray img.width.toNat img.height.toNat (toGray img) cfg).score
      = 0 := by
    rw [scoreGray_score, hfull, hcen]; ring
  refine ⟨?_, ?_, hscore, ?_⟩
  · rw [scoreGray_fullVar, hfull]
  · rw [scoreGray_centerVar, hcen]
  · rw [scoreGray_band, hscore]
    apply classify_eq_blurry_iff.mpr
    rw [ratioLow]
    nlinarith

/-- Witness for C6 at a concrete uniform 2 x 2 image of intensity 7. -/
theorem uniform_image_zero_score_witness :
    (0:ℚ) = 0 ∧ (0:ℚ) = 0 ∧ (0:ℚ) = 0 ∧ Band.blurry = Band.blurry :=
  uniform_image_zero_score ⟨2, 2, 1, [7, 7, 7, 7]⟩ ⟨100⟩ 7
    ⟨0, Band.blurry, 0, 0⟩
    (by
      intro i hi
      simp only [toGray] at hi ⊢
      norm_num at hi ⊢
      interval_cases i <;> rfl)
    (by norm_num)
    (by
      simp [score, validImage, scoreGray, fullFrameSamples, regionSamples,
        centerBounds, popVariance, classify, toGray, ratioLow, wFull, wCenter,
        List.range_succ])

lemma toNat_mul_cast {a b : Int} (ha : 0 ≤ a) (hb : 0 ≤ b) :
    ((a.toNat * b.toNat : Nat) : Int) = a * b := by
  rw [Nat.cast_mul, Int.toNat_of_nonneg ha, Int.toNat_of_nonneg hb]

lemma map_getD_range (n : Nat) (xs : List ℚ) (h : xs.length = n) :
    (List.range n).map (fun i => xs.getD i 0) = xs := by
  apply List.ext_getElem
  · simp [h]
  · intro i h1 h2
    simp [List.getD_eq_getElem?_getD, List.getElem?_eq_getElem h2]

/-- C7: scoring a 3-channel image with equal channels at every pixel equals
scoring the single-channel image with those intensities, because the luma
weights sum to 1 and a single channel passes through unchanged. -/
theorem grayscale_equivalence (img3 img1 : DecodedImage) (cfg : ScoringConfig)
    (h3 : img3.channels = 3) (h1 : img1.channels = 1)
    (hw : img3.width = img1.width) (hh : img3.height = img1.height)
    (hlen1 : img1.buffer.length = img1.width.toNat * img1.height.toNat)
    (hlen3 : img3.buffer.length = 3 * (img1.width.toNat * img1.height.toNat))
    (heq : ∀ i, i < img1.width.toNat * img1.height.toNat →
      img3.buffer.getD (3 * i) 0 = img1.buffer.getD i 0 ∧
      img3.buffer.getD (3 * i + 1) 0 = img1.buffer.getD i 0 ∧
      img3.buffer.getD (3 * i + 2) 0 = img1.buffer.getD i 0) :
    score img3 cfg = score img1 cfg := by
  have hgray : toGray img3 = toGray img1 := by
    unfold toGray
    rw [h3, h1, hw, hh, if_neg (by norm_num : ¬ (3 = 1)), if_pos rfl]
    have hpt : ∀ i ∈ List.range (img1.width.toNat * img1.height.toNat),
        299/1000 * img3.buffer.getD (3 * i) 0
          + 587/1000 * img3.buffer.getD (3 * i + 1) 0
          + 114/1000 * img3.buffer.getD (3 * i + 2) 0
        = img1.buffer.getD i 0 := by
      intro i hi
      obtain ⟨e0, e1, e2⟩ := heq i (List.mem_range.mp hi)
      rw [e0, e1, e2]; ring
    rw [List.map_congr_left hpt, map_getD_range _ _ hlen1]
  by_cases hv1 : validImage img1
  · have hv3 : validImage img3 := by
      obtain ⟨hw1, hh1, _⟩ := hv1
      refine ⟨hw ▸ hw1, hh ▸ hh1, ?_⟩
      rw [hlen3, h3, hw, hh, Nat.cast_mul, toNat_mul_cast hw1.le hh1.le]
      push_cast
      ring
    unfold score
    rw [if_pos hv1, if_pos hv3, hgray, hw, hh]
  · have hv3 : ¬ validImage img3 := by
      intro hv3
      apply hv1
      obtain ⟨hw3, hh3, _⟩ := hv3
      have hw1 : 0 < img1.width := hw ▸ hw3
      have hh1 : 0 < img1.height := hh ▸ hh3
      refine ⟨hw1, hh1, ?_⟩
      rw [hlen1, h1, toNat_mul_cast hw1.le hh1.le]
      push_cast
      ring
    unfold score
    rw [if_neg hv1, if_neg hv3]

/-- Witness for C7 at a concrete 1 x 1 pair of images with intensity 9. -/
theorem grayscale_equivalence_witness :
    score ⟨1, 1, 3, [9, 9, 9]⟩ ⟨100⟩ = score ⟨1, 1, 1, [9]⟩ ⟨100⟩ :=
  grayscale_equivalence ⟨1, 1, 3, [9, 9, 9]⟩ ⟨1, 1, 1, [9]⟩ ⟨100⟩
    rfl rfl rfl rfl rfl rfl
    (by
      intro i hi
      norm_num at hi
      subst hi
      exact ⟨rfl, rfl, rfl⟩)

end RaceBlur

namespace Preload

/-- C9: an entry appears in a successful scanJpegs result exactly when the
folder listing has a regular file with a JPEG-pattern name that is not
hidden, whose stat succeeds with positive size; its path is the folder
joined with the name.  Entries failing any condition are omitted. -/
theorem scanJpegs_member_iff (folderPath : String)
    (statSize : String → Option Nat) (entries : List DirEntry)
    (r : JpegEntry) :
    r ∈ scanJpegs folderPath statSize entries ↔
      ∃ e ∈ entries, e.isFile = true ∧ matchesJpegExt e.name = true ∧
        startsWithDot e.name = false ∧
        (∃ sz, statSize (pathJoin folderPath e.name) = some sz ∧ 0 < sz) ∧
        r = { name := e.name, path := pathJoin folderPath e.name } := by
  induction entries with
  | nil => simp [scanJpegs]
  | cons e rest ih =>
    unfold scanJpegs
    by_cases h1 : (!e.isFile || !matchesJpegExt e.name || startsWithDot e.name)
        = true
    · rw [if_pos h1, ih]
      constructor
      · rintro ⟨er, her, hprop⟩
        exact ⟨er, List.mem_cons_of_mem _ her, hprop⟩
      · rintro ⟨er, her, hfile, hext, hdot, hstat, hre⟩
        rcases List.mem_cons.mp her with rfl | hmem
        · simp only [Bool.or_eq_true, Bool.not_eq_true'] at h1
          rcases h1 with (hf | hm) | hd
          · rw [hfile] at hf; cases hf
          · rw [hext] at hm; cases hm
          · rw [hdot] at hd; cases hd
        · exact ⟨er, hmem, hfile, hext, hdot, hstat, hre⟩
    · rw [if_neg h1]
      simp only [Bool.or_eq_true, Bool.not_eq_true', not_or,
        Bool.not_eq_false, Bool.not_eq_true] at h1
      obtain ⟨⟨hfile, hext⟩, hdot⟩ := h1
      rcases hstat : statSize (pathJoin folderPath e.name) with _ | sz
      · rw [ih]
        constructor
        · rintro ⟨er, her, hprop⟩
          exact ⟨er, List.mem_cons_of_mem _ her, hprop⟩
        · rintro ⟨er, her, hfile2, hext2, hdot2, ⟨sz, hsz, hszpos⟩, hre⟩
          rcases List.mem_cons.mp her with rfl | hmem
          · rw [hstat] at hsz; cases hsz
          · exact ⟨er, hmem, hfile2, hext2, hdot2, ⟨sz, hsz, hszpos⟩, hre⟩
      · show r ∈ (if sz = 0 then scanJpegs folderPath statSize rest
            else { name := e.name, path := pathJoin folderPath e.name }
              :: scanJpegs folderPath statSize rest) ↔ _
        by_cases hz : sz = 0
        · rw [if_pos hz, ih]
          constructor
          · rintro ⟨er, her, hprop⟩
            exact ⟨er, List.mem_cons_of_mem _ her, hprop⟩
          · rintro ⟨er, her, hfile2, hext2, hdot2, ⟨sz2, hsz2, hszpos⟩, hre⟩
            rcases List.mem_cons.mp her with rfl | hmem
            · rw [hstat] at hsz2
              cases hsz2
              omega
            · exact ⟨er, hmem, hfile2, hext2, hdot2, ⟨sz2, hsz2, hszpos⟩, hre⟩
        · rw [if_neg hz]
          constructor
          · intro hr
            rcases List.mem_cons.mp hr with rfl | hmem
            · exact ⟨e, List.mem_cons_self e rest, hfile, hext, hdot,
                ⟨sz, hstat, by omega⟩, rfl⟩
            · obtain ⟨er, her, hprop⟩ := ih.mp hmem
              exact ⟨er, List.mem_cons_of_mem _ her, hprop⟩
          · rintro ⟨er, her, hfile2, hext2, hdot2, ⟨sz2, hsz2, hszpos⟩, hre⟩
            rcases List.mem_cons.mp her with rfl | hmem
            · rw [hre]
              exact List.mem_cons_self _ _
            · exact List.mem_cons_of_mem _
                (ih.mpr ⟨er, hmem, hfile2, hext2, hdot2, ⟨sz2, hsz2, hszpos⟩, hre⟩)

/-- Witness for C9: a concrete listing with one matching file. -/
theorem scanJpegs_member_iff_witness :
    ({ name := "a.jpg", path := pathJoin ("f") ("a.jpg") } : JpegEntry)
      ∈ scanJpegs ("f") (fun _ => some 5) [{ name := "a.jpg", isFile := true }] :=
  (scanJpegs_member_iff ("f") (fun _ => some 5)
      [{ name := "a.jpg", isFile := true }]
      { name := "a.jpg", path := pathJoin ("f") ("a.jpg") }).mpr
    ⟨{ name := "a.jpg", isFile := true }, List.mem_cons_self _ _, rfl,
      by decide, by decide, ⟨5, rfl, by omega⟩, rfl⟩

end Preload

namespace Preload

lemma moveFilesGo_length {σ : Type} (env : MoveEnv σ) (rd : String)
    (files : List String) : ∀ st : σ,
    ((moveFilesGo env rd files st).2).length = files.length := by
  induction files with
  | nil => intro st; rfl
  | cons f rest ih =>
    intro st
    unfold moveFilesGo
    cases henv : env.rename f (pathJoin rd (basename f)) st with
    | ok st1 => simp [henv, ih st1]
    | error msg => simp [henv, ih st]

lemma moveFilesGo_entry {σ : Type} (env : MoveEnv σ) (rd : String)
    (files : List String) : ∀ (st : σ) (i : Nat), i < files.length →
    (((moveFilesGo env rd files st).2).getD i default).file
        = basename (files.getD i ("")) ∧
    (∀ st2, env.rename (files.getD i (""))
        (pathJoin rd (basename (files.getD i (""))))
        (moveStateAt env rd files st i) = Except.ok st2 →
      ((moveFilesGo env rd files st).2).getD i default
        = { file := basename (files.getD i ("")), success := true,
            error := none }) ∧
    (∀ msg, env.rename (files.getD i (""))
        (pathJoin rd (basename (files.getD i (""))))
        (moveStateAt env rd files st i) = Except.error msg →
      ((moveFilesGo env rd files st).2).getD i default
        = { file := basename (files.getD i ("")), success := false,
            error := some msg }) := by
  induction files with
  | nil => intro st i hi; cases hi
  | cons f rest ih =>
    intro st i hi
    unfold moveFilesGo
    cases henv : env.rename f (pathJoin rd (basename f)) st with
    | ok st1 =>
      cases i with
      | zero =>
        refine ⟨by simp [henv], ?_, ?_⟩
        · intro st2 hok
          simp [henv]
        · intro msg hmsg
          simp only [List.getD_cons_zero, moveStateAt, henv] at hmsg
          simp at hmsg
      | succ j =>
        have hstate : moveStateAt env rd (f :: rest) st (j + 1)
            = moveStateAt env rd rest st1 j := by
          simp [moveStateAt, henv]
        simp only [henv, List.getD_cons_succ, hstate]
        exact ih st1 j (by simpa using hi)
    | error msg0 =>
      cases i with
      | zero =>
        refine ⟨by simp [henv], ?_, ?_⟩
        · intro st2 hok
          simp only [List.getD_cons_zero, moveStateAt, henv] at hok
          simp at hok
        · intro msg hmsg
          simp only [List.getD_cons_zero, moveStateAt, henv] at hmsg
          cases hmsg
          simp [henv]
      | succ j =>
        have hstate : moveStateAt env rd (f :: rest) st (j + 1)
            = moveStateAt env rd rest st j := by
          simp [moveStateAt, henv]
        simp only [henv, List.getD_cons_succ, hstate]
        exact ih st j (by simpa using hi)

lemma scanMultipleFolders_foldl (scan : String → Except String (List JpegEntry)) :
    ∀ (fs : List String) (acc : List JpegEntry),
    fs.foldl (fun results folder =>
        match scan folder with
        | Except.ok js => results ++ js
        | Except.error _ => results) acc
      = acc ++ (fs.filterMap fun f => (scan f).toOption).flatten := by
  intro fs
  induction fs with
  | nil => intro acc; simp
  | cons f rest ih =>
    intro acc
    cases hf : scan f with
    | ok js => simp [hf, ih, Except.toOption, List.append_assoc]
    | error msg => simp [hf, ih, Except.toOption]

/-- C8: batch operations continue past per-item failures.  moveToReview
returns exactly one result per input file, in order; the entry of a file
whose rename succeeds at the state it is processed in is marked successful
with no error, and the entry of a file whose rename fails there is marked
with success false and that error message, the remaining files still being
processed; scanMultipleFolders returns the concatenation of the successful
scans and skips folders whose scan failed. -/
theorem batch_continues_past_failures :
    (∀ (σ : Type) (env : MoveEnv σ) (payload : MovePayload) (st : σ),
      ((moveToReview env payload st).2.results).length = payload.files.length ∧
      (∀ i, i < payload.files.length →
        ((((moveToReview env payload st).2.results).getD i default).file
          = basename (payload.files.getD i (""))) ∧
        (∀ st2, env.rename (payload.files.getD i (""))
            (pathJoin ((moveToReview env payload st).2.reviewDir)
              (basename (payload.files.getD i (""))))
            (moveStateAt env ((moveToReview env payload st).2.reviewDir)
              payload.files
              (env.ensureDir ((moveToReview env payload st).2.reviewDir) st) i)
            = Except.ok st2 →
          (((moveToReview env payload st).2.results).getD i default)
            = { file := basename (payload.files.getD i ("")),
                success := true, error := none }) ∧
        (∀ msg, env.rename (payload.files.getD i (""))
            (pathJoin ((moveToReview env payload st).2.reviewDir)
              (basename (payload.files.getD i (""))))
            (moveStateAt env ((moveToReview env payload st).2.reviewDir)
              payload.files
              (env.ensureDir ((moveToReview env payload st).2.reviewDir) st) i)
            = Except.error msg →
          (((moveToReview env payload st).2.results).getD i default)
            = { file := basename (payload.files.getD i ("")),
                success := false, error := some msg }))) ∧
    (∀ (scan : String → Except String (List JpegEntry))
        (folderPaths : List String),
      scanMultipleFolders scan folderPaths
        = (folderPaths.filterMap fun f => (scan f).toOption).flatten) := by
  constructor
  · intro σ env payload st
    constructor
    · exact moveFilesGo_length env _ payload.files _
    · intro i hi
      exact moveFilesGo_entry env _ payload.files _ i hi
  · intro scan folderPaths
    unfold scanMultipleFolders
    rw [scanMultipleFolders_foldl scan folderPaths []]
    rfl

/-- Witness for C8: one rename succeeds and one fails; both yield result
entries, the failing file being marked with success false and its error
message; a failing folder is skipped by the multi-folder scan. -/
theorem batch_continues_past_failures_witness :
    ((moveToReview
        { ensureDir := fun _ st => st,
          rename := fun f _ st =>
            if f = ("a/good.jpg") then Except.ok (st + 1)
            else Except.error ("ENOENT") }
        { files := ["a/good.jpg", "a/miss.jpg"], sourceFolder := "a",
          reviewFolderName := none, destFolder := none }
        (0 : Nat)).2.results).length = 2 ∧
    ((moveToReview
        { ensureDir := fun _ st => st,
          rename := fun f _ st =>
            if f = ("a/good.jpg") then Except.ok (st + 1)
            else Except.error ("ENOENT") }
        { files := ["a/good.jpg", "a/miss.jpg"], sourceFolder := "a",
          reviewFolderName := none, destFolder := none }
        (0 : Nat)).2.results).getD 1 default
      = { file := "miss.jpg", success := false, error := some ("ENOENT") } ∧
    scanMultipleFolders
        (fun f => if f = ("g") then Except.ok [⟨"p.jpg", "g/p.jpg"⟩]
          else Except.error ("bad"))
        ["g", "nope"]
      = [⟨"p.jpg", "g/p.jpg"⟩] := by
  refine ⟨?_, ?_, ?_⟩
  · exact (batch_continues_past_failures.1 Nat
      { ensureDir := fun _ st => st,
        rename := fun f _ st =>
          if f = ("a/good.jpg") then Except.ok (st + 1)
          else Except.error ("ENOENT") }
      { files := ["a/good.jpg", "a/miss.jpg"], sourceFolder := "a",
        reviewFolderName := none, destFolder := none }
      0).1
  · have h := ((batch_continues_past_failures.1 Nat
      { ensureDir := fun _ st => st,
        rename := fun f _ st =>
          if f = ("a/good.jpg") then Except.ok (st + 1)
          else Except.error ("ENOENT") }
      { files := ["a/good.jpg", "a/miss.jpg"], sourceFolder := "a",
        reviewFolderName := none, destFolder := none }
      0).2 1 (by norm_num)).2.2 ("ENOENT") (by rfl)
    rw [h]
    decide
  · rw [batch_continues_past_failures.2
      (fun f => if f = ("g") then Except.ok [⟨"p.jpg", "g/p.jpg"⟩]
        else Except.error ("bad"))
      ["g", "nope"]]
    rfl

end Preload

namespace Preload

lemma decode_encode_sextet : ∀ n, n < 64 → decodeSextet (encodeSextet n) = n := by
  decide

lemma encodeSextet_ne_pad : ∀ n, n < 64 → encodeSextet n ≠ '=' := by
  decide

lemma base64_decode_encode : ∀ bytes : List Nat, (∀ b ∈ bytes, b < 256) →
    base64Decode (base64Encode bytes) = bytes := by
  intro bytes
  induction bytes using base64Encode.induct with
  | case1 a b c rest ih =>
    intro hb
    have ha : a < 256 := hb a (by simp)
    have hbb : b < 256 := hb b (by simp)
    have hc : c < 256 := hb c (by simp)
    have hrest := ih (fun x hx => hb x (by simp [hx]))
    simp only [base64Encode, base64Decode]
    rw [if_neg (by
      rintro ⟨-, hpad⟩
      exact encodeSextet_ne_pad (c % 64) (by omega) hpad)]
    rw [decode_encode_sextet (a / 4) (by omega),
      decode_encode_sextet (a % 4 * 16 + b / 16) (by omega),
      decode_encode_sextet (b % 16 * 4 + c / 64) (by omega),
      decode_encode_sextet (c % 64) (by omega), hrest]
    have e1 : a / 4 * 4 + (a % 4 * 16 + b / 16) / 16 = a := by omega
    have e2 : (a % 4 * 16 + b / 16) % 16 * 16 + (b % 16 * 4 + c / 64) / 4 = b := by
      omega
    have e3 : (b % 16 * 4 + c / 64) % 4 * 64 + c % 64 = c := by omega
    rw [e1, e2, e3]
  | case2 a b =>
    intro hb
    have ha : a < 256 := hb a (by simp)
    have hbb : b < 256 := hb b (by simp)
    simp only [base64Encode, base64Decode]
    rw [if_pos ⟨trivial, trivial⟩,
      if_neg (encodeSextet_ne_pad (b % 16 * 4) (by omega))]
    rw [decode_encode_sextet (a / 4) (by omega),
      decode_encode_sextet (a % 4 * 16 + b / 16) (by omega),
      decode_encode_sextet (b % 16 * 4) (by omega)]
    have e1 : a / 4 * 4 + (a % 4 * 16 + b / 16) / 16 = a := by omega
    have e2 : (a % 4 * 16 + b / 16) % 16 * 16 + b % 16 * 4 / 4 = b := by omega
    rw [e1, e2]
  | case3 a =>
    intro hb
    have ha : a < 256 := hb a (by simp)
    simp only [base64Encode, base64Decode]
    rw [if_pos ⟨trivial, trivial⟩]
    rw [decode_encode_sextet (a / 4) (by omega),
      decode_encode_sextet (a % 4 * 16) (by omega)]
    have e1 : a / 4 * 4 + a % 4 * 16 / 16 = a := by omega
    rw [e1, if_pos trivial]
  | case4 =>
    intro
    rfl

/-- C10: for a file read successfully, readFileBase64 rejects exactly the
contents shorter than two bytes or not starting with 0xFF 0xD8, and
otherwise returns a base64 string that decodes back to the bytes. -/
theorem readFileBase64_spec (buf : List Nat) (hbytes : ∀ b ∈ buf, b < 256) :
    (readFileBase64 buf = Except.error ("not a valid JPEG") ↔
      (buf.length < 2 ∨ buf.getD 0 0 ≠ 255 ∨ buf.getD 1 0 ≠ 216)) ∧
    (∀ s, readFileBase64 buf = Except.ok s → base64Decode s.data = buf) := by
  constructor
  · unfold readFileBase64
    split_ifs with h
    · exact iff_of_true rfl h
    · exact iff_of_false (by simp) h
  · intro s hs
    unfold readFileBase64 at hs
    split_ifs at hs with h
    simp only [Except.ok.injEq] at hs
    subst hs
    exact base64_decode_encode buf hbytes

/-- Witness for C10: a 3-byte JPEG-headed content round-trips. -/
theorem readFileBase64_spec_witness :
    base64Decode (String.mk (base64Encode [255, 216, 0])).data = [255, 216, 0] :=
  (readFileBase64_spec [255, 216, 0] (by decide)).2
    (String.mk (base64Encode [255, 216, 0])) (by rfl)

end Preload
